/-
Verification of the v2-ai-mcp blog-post extraction pipeline.

This file gives a shallow embedding, in Lean, of the extraction and
normalization core of the repository:

* the MCP tool surface over a fetched post list (src/main.py),
* the summarizer adapter (src/src/v2_ai_mcp/main.py),
* the rich-text extraction recursion of the Contentful GraphQL client
  (src/src/v2_ai_mcp/contentful_client.py),
* the HTML scraper: selector probing, regex date detection and the
  transport-failure path (src/src/v2_ai_mcp/scraper.py),
* the SDK-based Contentful field resolvers (_extract_author,
  _extract_date, _extract_post_data), which the repository exercises in
  tests/test_contentful_client.py but whose implementation file is not
  present; those are modelled from the specification.

Python strings are modelled as Lean String / List Char; Python dicts
(with their unique keys) as association lists where lookup returns the
first match; exceptions as explicit flags or Except values.
-/
import Mathlib

namespace V2AiMcp

/-- Canonical scraped post record: the 5-field dict built by
scraper.fetch_blog_post. -/
structure Post where
  title : String
  date : String
  author : String
  content : String
  url : String
deriving DecidableEq, Repr

/-- Canonical CMS post record: the 6-field dict built by the Contentful
client (adds the entry id). -/
structure CPost where
  title : String
  date : String
  author : String
  content : String
  url : String
  id : String
deriving DecidableEq, Repr

/-- Char-list test that `needle` begins `hay` (used to model Python
substring search without library dependencies). -/
def beginsWith : List Char → List Char → Bool
  | [], _ => true
  | _ :: _, [] => false
  | a :: as, b :: bs => a == b && beginsWith as bs

/-- Python `needle in hay` on strings: `needle` occurs as a contiguous
substring of `hay`. -/
def listContains (needle : List Char) : List Char → Bool
  | [] => beginsWith needle []
  | c :: rest => beginsWith needle (c :: rest) || listContains needle rest

/-- Python `needle in hay` for Lean strings. -/
def pyIn (needle hay : String) : Bool := listContains needle.data hay.data

/-! ## Tool surface over a fetched post list (src/main.py)

`summarize_post(index)` and `get_post_content(index)` first call
`fetch_blog_posts()`; here the fetched list is passed as an argument and
the summarization collaborator as a function parameter.  Python `int`
indices are modelled as `Int` (so negative indices are representable). -/

/-- Result of one of the index-based MCP tools: a full post dict, a
summary view dict, or an `{"error": ...}` dict. -/
inductive ToolResult where
  | post (p : Post)
  | view (title date author url summary : String)
  | err (msg : String)
deriving DecidableEq, Repr

/-- The f-string `f"Invalid index. Available posts: 0 to {len(posts) - 1}"`
(src/main.py lines 28 and 37). -/
def invalidIndexMsg (posts : List Post) : String :=
  "Invalid index. Available posts: 0 to " ++ toString ((posts.length : Int) - 1)

/-- src/main.py, `summarize_post` (lines 14-28): bounds-check the index,
then build the summary view via the summarizer. -/
def summarize_post (posts : List Post) (summarizer : String → String)
    (index : Int) : ToolResult :=
  if h : 0 ≤ index ∧ index < posts.length then
    let p := posts.get ⟨index.toNat, by omega⟩
    .view p.title p.date p.author p.url (summarizer p.content)
  else
    .err (invalidIndexMsg posts)

/-- src/main.py, `get_post_content` (lines 31-37): bounds-check the index,
then return the post dict unchanged. -/
def get_post_content (posts : List Post) (index : Int) : ToolResult :=
  if h : 0 ≤ index ∧ index < posts.length then
    .post (posts.get ⟨index.toNat, by omega⟩)
  else
    .err (invalidIndexMsg posts)

/-! ## Summarizer adapter (src/src/v2_ai_mcp/main.py, `_summarize_post`)

The adapter fetches a post by id (modelled as an argument) and, unless the
content carries the error marker, invokes the summarization collaborator. -/

/-- Result of the summarizer adapter: either the fetched post dict returned
unchanged, or a title/date/author/url/summary view. -/
inductive SummarizeResult where
  | post (p : CPost)
  | view (title date author url summary : String)
deriving DecidableEq, Repr

/-- src/src/v2_ai_mcp/main.py lines 31-41: `if "error" in post.get("content", ""):
return post`, else summarize and build the view. -/
def _summarize_post (summarize : String → String) (post : CPost) :
    SummarizeResult :=
  if pyIn "error" post.content then .post post
  else .view post.title post.date post.author post.url (summarize post.content)

/-! ## Theorems for claims C9 and C10 -/

/-- The error Post that `fetch_single_post`'s exception path produces:
its content is `"Error: " ++ str(e)`, capitalized, with no lowercase
"error" occurrence. -/
def c9post : CPost :=
  ⟨"Error fetching post", "", "", "Error: Connection timed out", "", "abc123"⟩

/-- C9 counterexample: a Post whose content is the capitalized
`"Error: Connection timed out"` — exactly the error-marker shape the
claim's sources name — carries the "Error:" marker, yet the adapter does
not return it unchanged: it builds the summary view, and its output
depends on the summarization collaborator, so the collaborator is
invoked on the error string. -/
theorem c9_counterexample :
    pyIn "Error:" c9post.content = true ∧
    pyIn "error" c9post.content = false ∧
    _summarize_post (fun _ => "summary 1") c9post =
      SummarizeResult.view "Error fetching post" "" "" "" "summary 1" ∧
    _summarize_post (fun _ => "summary 1") c9post ≠
      SummarizeResult.post c9post ∧
    _summarize_post (fun _ => "summary 1") c9post ≠
      _summarize_post (fun _ => "summary 2") c9post := by
  refine ⟨rfl, rfl, rfl, by decide, by decide⟩

/-- C9 (amended): the adapter's error marker is the case-sensitive
lowercase substring "error": for every Post whose content contains
"error" the adapter returns that Post unchanged and its output does not
depend on the summarization collaborator (so the collaborator is never
invoked), while for every Post whose content does not contain "error" —
including the capitalized `"Error: " ++ str(e)` Posts of the fetch error
paths — the adapter invokes the collaborator and returns the summary
view. -/
theorem c9_lowercase_error_marker (post : CPost) (s₁ s₂ : String → String) :
    (pyIn "error" post.content = true →
      _summarize_post s₁ post = SummarizeResult.post post ∧
      _summarize_post s₁ post = _summarize_post s₂ post) ∧
    (pyIn "error" post.content = false →
      _summarize_post s₁ post =
        SummarizeResult.view post.title post.date post.author post.url
          (s₁ post.content)) := by
  constructor
  · intro h
    constructor
    · unfold _summarize_post
      rw [h]
      simp
    · unfold _summarize_post
      rw [h]
      simp
  · intro h
    unfold _summarize_post
    rw [h]
    simp

/-- C9 witness: a Post whose content is a GraphQL error record (lowercase
"errors") is returned unchanged by the adapter, for two different
collaborators, while a Post with the capitalized marker
"Error: boom" is summarized. -/
theorem c9_lowercase_error_marker_witness :
    _summarize_post (fun _ => "summary A")
        ⟨"T", "D", "A", "GraphQL errors: boom", "U", "I"⟩ =
      SummarizeResult.post ⟨"T", "D", "A", "GraphQL errors: boom", "U", "I"⟩ ∧
    _summarize_post (fun _ => "summary A")
        ⟨"T", "D", "A", "GraphQL errors: boom", "U", "I"⟩ =
      _summarize_post (fun _ => "summary B")
        ⟨"T", "D", "A", "GraphQL errors: boom", "U", "I"⟩ ∧
    _summarize_post (fun _ => "summary A")
        ⟨"T2", "D2", "A2", "Error: boom", "U2", "I2"⟩ =
      SummarizeResult.view "T2" "D2" "A2" "U2" "summary A" :=
  ⟨((c9_lowercase_error_marker
      ⟨"T", "D", "A", "GraphQL errors: boom", "U", "I"⟩
      (fun _ => "summary A") (fun _ => "summary B")).1 (by decide)).1,
   ((c9_lowercase_error_marker
      ⟨"T", "D", "A", "GraphQL errors: boom", "U", "I"⟩
      (fun _ => "summary A") (fun _ => "summary B")).1 (by decide)).2,
   (c9_lowercase_error_marker
      ⟨"T2", "D2", "A2", "Error: boom", "U2", "I2"⟩
      (fun _ => "summary A") (fun _ => "summary B")).2 (by decide)⟩

/-- C10: for every index outside `0 .. len(posts) - 1` (negative indices
included), both index-based tools return the structured
`{"error": "Invalid index. Available posts: 0 to <max>"}` value with
`<max> = len(posts) - 1`, rather than raising. -/
theorem c10_out_of_range_index (posts : List Post) (s : String → String)
    (index : Int) (h : index < 0 ∨ (posts.length : Int) ≤ index) :
    summarize_post posts s index = ToolResult.err (invalidIndexMsg posts) ∧
    get_post_content posts index = ToolResult.err (invalidIndexMsg posts) := by
  have hn : ¬(0 ≤ index ∧ index < posts.length) := by omega
  constructor
  · unfold summarize_post
    rw [dif_neg hn]
  · unfold get_post_content
    rw [dif_neg hn]

/-- C10 witness: index 5 against a 1-element post list yields the error
value `{"error": "Invalid index. Available posts: 0 to 0"}` from both
tools. -/
theorem c10_out_of_range_index_witness :
    summarize_post [⟨"T", "D", "A", "C", "U"⟩] (fun c => c) 5 =
      ToolResult.err "Invalid index. Available posts: 0 to 0" ∧
    get_post_content [⟨"T", "D", "A", "C", "U"⟩] 5 =
      ToolResult.err "Invalid index. Available posts: 0 to 0" := by
  have h := c10_out_of_range_index [⟨"T", "D", "A", "C", "U"⟩]
    (fun c => c) 5 (Or.inr (by decide))
  have hmsg : invalidIndexMsg [⟨"T", "D", "A", "C", "U"⟩] =
      "Invalid index. Available posts: 0 to 0" := by decide
  rw [hmsg] at h
  exact h

/-! ## Rich-text extraction (src/src/v2_ai_mcp/contentful_client.py)

`extract_text_from_node` (lines 185-195) walks the Contentful rich-text
JSON: a dict is inspected for `nodeType == "text"` (take its `value`,
default `""`), else for a `content` key (space-join the extracted
children), lists are space-joined element-wise, everything else yields
`""`.  JSON values are modelled by `RJson`; dicts are association lists
(keys unique, lookup takes the first match).  Modelled domain, as in
Contentful rich text: `value` fields hold strings and `content` fields
hold arrays (a non-string `value` or non-array `content` would make the
Python `" ".join` raise a TypeError that the enclosing
`_extract_content_from_json` catches). -/

/-- A JSON value as far as the rich-text walker distinguishes shapes:
dict, array, string, or anything else (numbers, booleans, null). -/
inductive RJson where
  | dict (fields : List (String × RJson))
  | arr (items : List RJson)
  | str (s : String)
  | other

/-- Python dict lookup on the modelled dict: first matching key wins
(keys of a Python dict are unique). -/
def jlookup : List (String × RJson) → String → Option RJson
  | [], _ => none
  | (k, v) :: rest, key => if k = key then some v else jlookup rest key

/-- The check `node.get("nodeType") == "text"` (line 187). -/
def isTextNode (fs : List (String × RJson)) : Bool :=
  match jlookup fs "nodeType" with
  | some (RJson.str s) => s = "text"
  | _ => false

/-- The read `node.get("value", "")` (line 188); `value` fields hold
strings in the modelled domain. -/
def textValue (fs : List (String × RJson)) : String :=
  match jlookup fs "value" with
  | some (RJson.str v) => v
  | _ => ""

/-- Python `sep.join(parts)`. -/
def joinSep (sep : String) : List String → String
  | [] => ""
  | [x] => x
  | x :: y :: rest => x ++ sep ++ joinSep sep (y :: rest)

mutual

/-- contentful_client.py lines 185-195, `extract_text_from_node`: text
nodes yield their value, container dicts space-join their `content`
children, lists space-join their elements, everything else yields "". -/
def extract_text_from_node : RJson → String
  | RJson.dict fs =>
      if isTextNode fs then textValue fs else contentText fs
  | RJson.arr items => joinSep " " (extractList items)
  | RJson.str _ => ""
  | RJson.other => ""

/-- The `elif "content" in node` branch (lines 189-192): scan the dict for
the `content` key and space-join the extracted children; a dict without
`content` falls through to `return ""` (line 195). -/
def contentText : List (String × RJson) → String
  | [] => ""
  | (k, v) :: rest => if k = "content" then contentJoin v else contentText rest

/-- Iteration `" ".join(extract_text_from_node(child) for child in
node["content"])`; `content` holds an array in the modelled domain. -/
def contentJoin : RJson → String
  | RJson.arr items => joinSep " " (extractList items)
  | _ => ""

/-- Elementwise extraction of a list of child nodes. -/
def extractList : List RJson → List String
  | [] => []
  | n :: rest => extract_text_from_node n :: extractList rest

end

/-- contentful_client.py lines 181-204, `_extract_content_from_json`:
non-empty dict with a `content` key runs the walker (then
`str(result) if result else ""`, the identity on strings); everything
else yields `""`. -/
def _extract_content_from_json : RJson → String
  | RJson.dict fs =>
      if fs.isEmpty then ""
      else
        match jlookup fs "content" with
        | some v =>
            let result := extract_text_from_node v
            if result = "" then "" else result
        | none => ""
  | _ => ""

/-! ### Spec-side view of the rich-text tree

`textValues` collects all text-node values in document order, following
the same traversal as the walker (containers contribute their `content`
children).  `wfNode` singles out the trees made only of text nodes and
non-empty containers — no empty child lists and no unrecognized nodes. -/

mutual

/-- All text-node values of the tree, in document order. -/
def textValues : RJson → List String
  | RJson.dict fs => if isTextNode fs then [textValue fs] else textValuesFields fs
  | RJson.arr items => textValuesList items
  | RJson.str _ => []
  | RJson.other => []

/-- Text values contributed through a dict's `content` key. -/
def textValuesFields : List (String × RJson) → List String
  | [] => []
  | (k, v) :: rest =>
      if k = "content" then textValuesOf v else textValuesFields rest

/-- Text values of a `content` value (an array of children). -/
def textValuesOf : RJson → List String
  | RJson.arr items => textValuesList items
  | _ => []

/-- Text values of a list of children, concatenated in order. -/
def textValuesList : List RJson → List String
  | [] => []
  | n :: rest => textValues n ++ textValuesList rest

end

mutual

/-- A node is well formed when it is a text node or a container whose
`content` is a non-empty array of well-formed nodes: no empty child lists
and no unrecognized nodes anywhere. -/
def wfNode : RJson → Bool
  | RJson.dict fs => if isTextNode fs then true else wfFields fs
  | _ => false

/-- Well-formedness of a container dict: it must carry a `content` key
holding a non-empty array of well-formed children. -/
def wfFields : List (String × RJson) → Bool
  | [] => false
  | (k, v) :: rest => if k = "content" then wfContent v else wfFields rest

/-- Well-formedness of a `content` value. -/
def wfContent : RJson → Bool
  | RJson.arr items => !items.isEmpty && wfList items
  | _ => false

/-- Well-formedness of every node of a child list. -/
def wfList : List RJson → Bool
  | [] => true
  | n :: rest => wfNode n && wfList rest

end

theorem joinSep_cons (sep x : String) (xs : List String) (h : xs ≠ []) :
    joinSep sep (x :: xs) = x ++ sep ++ joinSep sep xs := by
  match xs with
  | [] => exact absurd rfl h
  | y :: rest => rfl

theorem joinSep_append (sep : String) (xs ys : List String)
    (hx : xs ≠ []) (hy : ys ≠ []) :
    joinSep sep (xs ++ ys) = joinSep sep xs ++ sep ++ joinSep sep ys := by
  match xs with
  | [] => exact absurd rfl hx
  | [x] =>
    rw [List.singleton_append, joinSep_cons sep x ys hy]
    rfl
  | x :: x2 :: xs2 =>
    have hne : x2 :: xs2 ++ ys ≠ [] := by simp
    rw [List.cons_append, joinSep_cons sep x (x2 :: xs2 ++ ys) hne,
      joinSep_append sep (x2 :: xs2) ys (by simp) hy,
      joinSep_cons sep x (x2 :: xs2) (by simp)]
    simp [String.append_assoc]

theorem contentText_eq_jlookup (fs : List (String × RJson)) :
    contentText fs =
      (match jlookup fs "content" with
       | some v => contentJoin v
       | none => "") := by
  induction fs with
  | nil => rfl
  | cons kv rest ih =>
    obtain ⟨k, v⟩ := kv
    by_cases hk : k = "content"
    · simp [contentText, jlookup, hk]
    · simp [contentText, jlookup, hk, ih]

theorem extractList_eq_map (items : List RJson) :
    extractList items = items.map extract_text_from_node := by
  induction items with
  | nil => rfl
  | cons n rest ih => simp [extractList, ih]

mutual

theorem extract_wfNode (n : RJson) (h : wfNode n = true) :
    extract_text_from_node n = joinSep " " (textValues n) ∧
      textValues n ≠ [] := by
  match n with
  | RJson.dict fs =>
    by_cases ht : isTextNode fs
    · refine ⟨?_, by simp [textValues, ht]⟩
      simp [extract_text_from_node, textValues, ht, joinSep]
    · have hf : wfFields fs = true := by simpa [wfNode, ht] using h
      have := extract_wfFields fs hf
      simpa [extract_text_from_node, textValues, ht] using this
  | RJson.arr items => simp [wfNode] at h
  | RJson.str s => simp [wfNode] at h
  | RJson.other => simp [wfNode] at h

theorem extract_wfFields (fs : List (String × RJson)) (h : wfFields fs = true) :
    contentText fs = joinSep " " (textValuesFields fs) ∧
      textValuesFields fs ≠ [] := by
  match fs with
  | [] => simp [wfFields] at h
  | (k, v) :: rest =>
    by_cases hk : k = "content"
    · have hc : wfContent v = true := by simpa [wfFields, hk] using h
      have := extract_wfContent v hc
      simpa [contentText, textValuesFields, hk] using this
    · have hr : wfFields rest = true := by simpa [wfFields, hk] using h
      have := extract_wfFields rest hr
      simpa [contentText, textValuesFields, hk] using this

theorem extract_wfContent (v : RJson) (h : wfContent v = true) :
    contentJoin v = joinSep " " (textValuesOf v) ∧ textValuesOf v ≠ [] := by
  match v with
  | RJson.arr items =>
    have hne : items ≠ [] := by
      simp [wfContent] at h
      rcases h with ⟨h1, _⟩
      simpa [List.isEmpty_iff] using h1
    have hall : wfList items = true := by
      simp [wfContent] at h
      exact h.2
    have := extract_wfList items hall
    exact ⟨by simpa [contentJoin, textValuesOf] using this.1,
      by simpa [textValuesOf] using this.2 hne⟩
  | RJson.dict fs => simp [wfContent] at h
  | RJson.str s => simp [wfContent] at h
  | RJson.other => simp [wfContent] at h

theorem extract_wfList (items : List RJson) (h : wfList items = true) :
    joinSep " " (extractList items) = joinSep " " (textValuesList items) ∧
      (items ≠ [] → textValuesList items ≠ []) := by
  match items with
  | [] => exact ⟨rfl, fun hne => absurd rfl hne⟩
  | n :: rest =>
    have hn : wfNode n = true := by
      simp [wfList] at h
      exact h.1
    have hrest : wfList rest = true := by
      simp [wfList] at h
      exact h.2
    obtain ⟨he, hv⟩ := extract_wfNode n hn
    match rest with
    | [] =>
      refine ⟨?_, fun _ => by simpa [textValuesList] using hv⟩
      simp [extractList, textValuesList, joinSep, he]
    | r :: rs =>
      obtain ⟨hj, hi⟩ := extract_wfList (r :: rs) hrest
      have hvrest : textValuesList (r :: rs) ≠ [] := hi (by simp)
      have hlist : extractList (r :: rs) ≠ [] := by simp [extractList]
      refine ⟨?_, fun _ hcontra => hv (List.append_eq_nil.mp hcontra).1⟩
      calc joinSep " " (extractList (n :: r :: rs))
          = extract_text_from_node n ++ " " ++
              joinSep " " (extractList (r :: rs)) := by
            rw [show extractList (n :: r :: rs) =
              extract_text_from_node n :: extractList (r :: rs) from rfl,
              joinSep_cons " " _ _ hlist]
        _ = joinSep " " (textValues n) ++ " " ++
              joinSep " " (textValuesList (r :: rs)) := by rw [he, hj]
        _ = joinSep " " (textValues n ++ textValuesList (r :: rs)) := by
            rw [joinSep_append " " _ _ hv hvrest]
        _ = joinSep " " (textValuesList (n :: r :: rs)) := rfl

end

/-- The concrete tree refuting the global space-join characterization:
a container holding an empty container followed by a text node `"c"`. -/
def c1tree : RJson :=
  RJson.dict [("content", RJson.arr
    [RJson.dict [("content", RJson.arr [])],
     RJson.dict [("nodeType", RJson.str "text"), ("value", RJson.str "c")]])]

/-- C1 counterexample: on a container whose children are an empty
container and a text node `"c"`, extraction returns `" c"` — the empty
container contributes an empty string that the single-space join
surrounds with a separator — while the space-joined concatenation of all
text-node values in document order is `"c"`. -/
theorem c1_counterexample :
    extract_text_from_node c1tree = " c" ∧
    joinSep " " (textValues c1tree) = "c" ∧
    (" c" : String) ≠ "c" := by
  refine ⟨rfl, rfl, by decide⟩

/-- C1 (amended): text extraction follows the stated recursion exactly —
a text node yields its literal value, a container node yields its
children's extracted texts joined by a single space, and an empty or
unrecognized node yields the empty string — and on every tree that
contains no empty and no unrecognized nodes the result equals the
space-joined concatenation of all text-node values in document order. -/
theorem c1_text_extraction_recursion :
    (∀ fs, isTextNode fs = true →
      extract_text_from_node (RJson.dict fs) = textValue fs) ∧
    (∀ fs items, isTextNode fs = false →
      jlookup fs "content" = some (RJson.arr items) →
      extract_text_from_node (RJson.dict fs) =
        joinSep " " (items.map extract_text_from_node)) ∧
    (∀ fs, isTextNode fs = false → jlookup fs "content" = none →
      extract_text_from_node (RJson.dict fs) = "") ∧
    (∀ items, extract_text_from_node (RJson.arr items) =
      joinSep " " (items.map extract_text_from_node)) ∧
    (∀ s, extract_text_from_node (RJson.str s) = "") ∧
    (extract_text_from_node RJson.other = "") ∧
    (∀ node, wfNode node = true →
      extract_text_from_node node = joinSep " " (textValues node)) := by
  refine ⟨?_, ?_, ?_, ?_, fun s => rfl, rfl, ?_⟩
  · intro fs ht
    simp [extract_text_from_node, ht]
  · intro fs items ht hc
    simp [extract_text_from_node, ht, contentText_eq_jlookup, hc, contentJoin,
      extractList_eq_map]
  · intro fs ht hc
    simp [extract_text_from_node, ht, contentText_eq_jlookup, hc]
  · intro items
    simp [extract_text_from_node, extractList_eq_map]
  · exact fun node h => (extract_wfNode node h).1

/-- C1 witness: the recursion equations and the restricted global
characterization, instantiated on a concrete well-formed tree
`container [text "a", container [text "b", text "c"]]`. -/
theorem c1_text_extraction_recursion_witness :
    extract_text_from_node (RJson.dict [("content", RJson.arr
        [RJson.dict [("nodeType", RJson.str "text"), ("value", RJson.str "a")],
         RJson.dict [("content", RJson.arr
           [RJson.dict [("nodeType", RJson.str "text"), ("value", RJson.str "b")],
            RJson.dict [("nodeType", RJson.str "text"),
              ("value", RJson.str "c")]])]])]) =
      joinSep " " (textValues (RJson.dict [("content", RJson.arr
        [RJson.dict [("nodeType", RJson.str "text"), ("value", RJson.str "a")],
         RJson.dict [("content", RJson.arr
           [RJson.dict [("nodeType", RJson.str "text"), ("value", RJson.str "b")],
            RJson.dict [("nodeType", RJson.str "text"),
              ("value", RJson.str "c")]])]])])) ∧
    joinSep " " (textValues (RJson.dict [("content", RJson.arr
        [RJson.dict [("nodeType", RJson.str "text"), ("value", RJson.str "a")],
         RJson.dict [("content", RJson.arr
           [RJson.dict [("nodeType", RJson.str "text"), ("value", RJson.str "b")],
            RJson.dict [("nodeType", RJson.str "text"),
              ("value", RJson.str "c")]])]])])) = "a b c" :=
  ⟨c1_text_extraction_recursion.2.2.2.2.2.2 _ rfl, rfl⟩

/-- A nest of containers of depth `d` around a single text node `"x"`:
the family exhibiting termination at every depth. -/
def deepNest : Nat → RJson
  | 0 => RJson.dict [("nodeType", RJson.str "text"), ("value", RJson.str "x")]
  | d + 1 => RJson.dict [("content", RJson.arr [deepNest d])]

/-- C5: text extraction is a total function of the node tree (it
terminates with a string on every input), in particular it yields `"x"`
on container nests of every depth around the text node `"x"`, and a
container with an empty child list — or a bare empty list — yields the
empty string rather than an error. -/
theorem c5_extraction_terminates :
    (∀ node : RJson, ∃ s, extract_text_from_node node = s) ∧
    (∀ depth, extract_text_from_node (deepNest depth) = "x") ∧
    extract_text_from_node (RJson.dict [("content", RJson.arr [])]) = "" ∧
    extract_text_from_node (RJson.arr []) = "" := by
  refine ⟨fun node => ⟨_, rfl⟩, ?_, rfl, rfl⟩
  intro d
  induction d with
  | zero => rfl
  | succ n ih => exact ih

/-! ## SDK-based Contentful field resolvers (modelled from the spec)

The repository's tests (tests/test_contentful_client.py) exercise an
SDK-based client with `_extract_author`, `_extract_date` and
`_extract_post_data`; that implementation file is not present in the
source tree (the shipped client is the GraphQL one, which has none of the
candidate-field probing).  The definitions below are therefore modelled
from the specification (§4.2), corroborated by those tests.  A CMS field
value is polymorphic: a plain string, a linked entry (whose field
accessor may raise), a list, a rich-text value, a datetime-like value
exposing an ISO conversion, or anything else carrying its
stringification. -/

/-- Modelled from the spec: a polymorphic CMS field value.  `entry`
models a linked entry whose field accessor raises iff `raises` is true;
`iso` models a datetime-like value whose ISO conversion is `value`;
`other` carries the Python stringification of an otherwise-unhandled
value. -/
inductive CVal where
  | s (v : String)
  | entry (raises : Bool) (fields : List (String × String))
  | list (items : List CVal)
  | rich (node : RJson)
  | iso (value : String)
  | other (pystr : String)

/-- Modelled from the spec: Python `str()` on a CMS field value (strings
are returned verbatim; the empty list stringifies to "[]"). -/
def pyStr : CVal → String
  | CVal.s v => v
  | CVal.entry _ _ => "<Entry>"
  | CVal.list [] => "[]"
  | CVal.list (_ :: _) => "[...]"
  | CVal.rich _ => "<RichText>"
  | CVal.iso v => v
  | CVal.other v => v

/-- First-match lookup in a string-valued field map (a Python dict). -/
def slookup : List (String × String) → String → Option String
  | [], _ => none
  | (k, v) :: rest, key => if k = key then some v else slookup rest key

/-- First-match lookup in a CMS field map (a Python dict). -/
def clookup : List (String × CVal) → String → Option CVal
  | [], _ => none
  | (k, v) :: rest, key => if k = key then some v else clookup rest key

/-- Probe an ordered list of candidate field names; the first name
present in the map wins (presence, not non-emptiness). -/
def firstPresent (fields : List (String × CVal)) : List String → Option CVal
  | [] => none
  | c :: cs =>
    match clookup fields c with
    | some v => some v
    | none => firstPresent fields cs

/-- Probe an ordered list of name-like sub-field names in a linked
entry's string field map; first present wins. -/
def firstPresentS (fields : List (String × String)) : List String → Option String
  | [] => none
  | c :: cs =>
    match slookup fields c with
    | some v => some v
    | none => firstPresentS fields cs

/-- Modelled from the spec: the ordered author candidate field names. -/
def author_candidates : List String :=
  ["author", "authorName", "writer", "createdBy"]

/-- Modelled from the spec: the ordered name-like sub-fields probed in a
linked author entry. -/
def author_name_fields : List String :=
  ["name", "fullName", "displayName", "title"]

/-- Modelled from the spec: resolve a linked author entry — probe the
name-like sub-fields, first present wins; fall back to "Unknown Author"
when the accessor raises or no name-like sub-field is present. -/
def resolve_linked_author (raises : Bool) (fields : List (String × String)) :
    String :=
  if raises then "Unknown Author"
  else
    match firstPresentS fields author_name_fields with
    | some v => v
    | none => "Unknown Author"

/-- Modelled from the spec: resolve the winning author field's value — a
linked entry via its name-like sub-fields; a non-empty list via its first
element only (stringified when not entry-shaped); a plain string
verbatim; anything else stringified. -/
def resolve_author_value : CVal → String
  | CVal.entry r fs => resolve_linked_author r fs
  | CVal.list (x :: _) =>
    match x with
    | CVal.entry r fs => resolve_linked_author r fs
    | v => pyStr v
  | CVal.s v => v
  | v => pyStr v

/-- Modelled from the spec: `_extract_author` — probe the author
candidate field names in order, resolve the first present one; fall back
to "Unknown Author" when none is present. -/
def _extract_author (fields : List (String × CVal)) : String :=
  match firstPresent fields author_candidates with
  | some v => resolve_author_value v
  | none => "Unknown Author"

/-- Modelled from the spec: the ordered date candidate field names. -/
def date_candidates : List String :=
  ["publishDate", "publicationDate", "publishedAt", "published", "date",
   "createdDate", "dateCreated", "createdAt"]

/-- Modelled from the spec: the winning date field's value — an
ISO-convertible value yields its ISO form, a string is used verbatim,
anything else is stringified. -/
def date_value : CVal → String
  | CVal.iso v => v
  | CVal.s v => v
  | v => pyStr v

/-- Modelled from the spec: `_extract_date` — probe the date candidate
field names in order (first present wins); fall back to the entry's
system creation timestamp, and to "No date available" when that too is
absent. -/
def _extract_date (fields : List (String × CVal))
    (sysCreatedAt : Option String) : String :=
  match firstPresent fields date_candidates with
  | some v => date_value v
  | none =>
    match sysCreatedAt with
    | some c => c
    | none => "No date available"

/-- Modelled from the spec: `_extract_post_data` — build the canonical
CMS Post from an entry's field map and system metadata: title with
placeholder "No title"; content from `content` then `body` (rich-text
values run through the extraction recursion, non-strings stringified)
with placeholder "No content"; author and date via their resolvers; url
from `slug` through the fixed template, empty when no slug; id from the
system id. -/
def _extract_post_data (fields : List (String × CVal)) (sysId : Option String)
    (sysCreatedAt : Option String) : CPost :=
  { title :=
      match clookup fields "title" with
      | some (CVal.s v) => v
      | some v => pyStr v
      | none => "No title"
    content :=
      match
        (match clookup fields "content" with
         | some v => some v
         | none => clookup fields "body") with
      | none => "No content"
      | some (CVal.rich n) => extract_text_from_node n
      | some (CVal.s v) => v
      | some v => pyStr v
    author := _extract_author fields
    date := _extract_date fields sysCreatedAt
    url :=
      match clookup fields "slug" with
      | some (CVal.s sl) => if sl = "" then "" else "https://your-site.com/" ++ sl
      | _ => ""
    id := sysId.getD "" }

theorem firstPresent_nil (fields : List (String × CVal)) :
    firstPresent fields [] = none := rfl

theorem firstPresent_cons (fields : List (String × CVal)) (c : String)
    (cs : List String) :
    firstPresent fields (c :: cs) =
      (match clookup fields c with
       | some v => some v
       | none => firstPresent fields cs) := rfl

/-! ## Theorems for claims C2, C3 and C4 -/

/-- C2: RichText entry extraction of the empty field map returns a fully
populated Post carrying the placeholders: title "No title", content
"No content", author "Unknown Author" and url "". -/
theorem c2_empty_field_map_placeholders :
    (_extract_post_data [] none none).title = "No title" ∧
    (_extract_post_data [] none none).content = "No content" ∧
    (_extract_post_data [] none none).author = "Unknown Author" ∧
    (_extract_post_data [] none none).url = "" := by
  refine ⟨rfl, rfl, rfl, rfl⟩

/-- C3: date resolution probes the candidate field names in the fixed
order publishDate, publicationDate, publishedAt, published, date,
createdDate, dateCreated, createdAt, and presence (not non-emptiness)
decides: a present publishDate always wins — in particular over a
present date field — date wins once the four earlier candidates are
absent, and when no candidate is present the system creation timestamp
is used, with placeholder "No date available" when that too is absent. -/
theorem c3_date_probing_order :
    (∀ fields sys v, clookup fields "publishDate" = some v →
      _extract_date fields sys = date_value v) ∧
    (∀ fields sys v,
      clookup fields "publishDate" = none →
      clookup fields "publicationDate" = none →
      clookup fields "publishedAt" = none →
      clookup fields "published" = none →
      clookup fields "date" = some v →
      _extract_date fields sys = date_value v) ∧
    (∀ fields c, (∀ name ∈ date_candidates, clookup fields name = none) →
      _extract_date fields (some c) = c) ∧
    (∀ fields, (∀ name ∈ date_candidates, clookup fields name = none) →
      _extract_date fields none = "No date available") := by
  refine ⟨?_, ?_, ?_, ?_⟩
  · intro fields sys v h
    have hfp : firstPresent fields date_candidates = some v := by
      simp only [date_candidates, firstPresent_cons, h]
    unfold _extract_date
    rw [hfp]
  · intro fields sys v h1 h2 h3 h4 h5
    have hfp : firstPresent fields date_candidates = some v := by
      simp only [date_candidates, firstPresent_cons, h1, h2, h3, h4, h5]
    unfold _extract_date
    rw [hfp]
  · intro fields c h
    have hfp : firstPresent fields date_candidates = none := by
      simp only [date_candidates, firstPresent_cons, firstPresent_nil,
        h "publishDate" (by simp [date_candidates]),
        h "publicationDate" (by simp [date_candidates]),
        h "publishedAt" (by simp [date_candidates]),
        h "published" (by simp [date_candidates]),
        h "date" (by simp [date_candidates]),
        h "createdDate" (by simp [date_candidates]),
        h "dateCreated" (by simp [date_candidates]),
        h "createdAt" (by simp [date_candidates])]
    unfold _extract_date
    rw [hfp]
  · intro fields h
    have hfp : firstPresent fields date_candidates = none := by
      simp only [date_candidates, firstPresent_cons, firstPresent_nil,
        h "publishDate" (by simp [date_candidates]),
        h "publicationDate" (by simp [date_candidates]),
        h "publishedAt" (by simp [date_candidates]),
        h "published" (by simp [date_candidates]),
        h "date" (by simp [date_candidates]),
        h "createdDate" (by simp [date_candidates]),
        h "dateCreated" (by simp [date_candidates]),
        h "createdAt" (by simp [date_candidates])]
    unfold _extract_date
    rw [hfp]

/-- C3 witness: with both publishDate (holding the empty string) and date
present, publishDate wins — presence decides, not non-emptiness — and an
entry with no candidate fields falls back to the system timestamp. -/
theorem c3_date_probing_order_witness :
    _extract_date [("publishDate", CVal.s ""), ("date", CVal.s "2024-01-01")]
      none = "" ∧
    _extract_date [("slug", CVal.s "x")] (some "2024-02-01T10:00:00Z") =
      "2024-02-01T10:00:00Z" :=
  ⟨c3_date_probing_order.1 [("publishDate", CVal.s ""),
      ("date", CVal.s "2024-01-01")] none (CVal.s "") rfl,
   c3_date_probing_order.2.2.1 [("slug", CVal.s "x")] "2024-02-01T10:00:00Z"
     (by intro name hname; fin_cases hname <;> rfl)⟩

/-- C4: when the author field holds a non-empty list, resolution depends
only on the first element — a later element is never consulted — and it
always terminates in a string: an entry-shaped first element resolves
through the linked-entry resolver, which yields the "Unknown Author"
fallback whenever the element's field accessor raises, and a
non-entry-shaped first element is stringified. -/
theorem c4_author_list_first_element (fields : List (String × CVal))
    (x : CVal) (rest : List CVal)
    (h : clookup fields "author" = some (CVal.list (x :: rest))) :
    _extract_author fields = resolve_author_value (CVal.list [x]) ∧
    (∀ r efs, x = CVal.entry r efs →
      _extract_author fields = resolve_linked_author r efs) ∧
    (∀ efs, x = CVal.entry true efs →
      _extract_author fields = "Unknown Author") := by
  have hx : _extract_author fields = resolve_author_value (CVal.list (x :: rest)) := by
    have hfp : firstPresent fields author_candidates =
        some (CVal.list (x :: rest)) := by
      simp only [author_candidates, firstPresent_cons, h]
    unfold _extract_author
    rw [hfp]
  have hfirst : resolve_author_value (CVal.list (x :: rest)) =
      resolve_author_value (CVal.list [x]) := by
    cases x <;> rfl
  refine ⟨hx.trans hfirst, ?_, ?_⟩
  · intro r efs hxe
    subst hxe
    exact hx.trans rfl
  · intro efs hxe
    subst hxe
    exact hx.trans rfl

/-- C4 witness: an author list whose first element's accessor raises
resolves to "Unknown Author" even though a perfectly good second element
follows, and resolution only looks at the first element. -/
theorem c4_author_list_first_element_witness :
    _extract_author
        [("author", CVal.list
          [CVal.entry true [("name", "Jane")], CVal.s "Second Author"])] =
      "Unknown Author" ∧
    _extract_author
        [("author", CVal.list
          [CVal.entry true [("name", "Jane")], CVal.s "Second Author"])] =
      resolve_author_value (CVal.list [CVal.entry true [("name", "Jane")]]) :=
  ⟨(c4_author_list_first_element
      [("author", CVal.list
        [CVal.entry true [("name", "Jane")], CVal.s "Second Author"])]
      (CVal.entry true [("name", "Jane")])
      [CVal.s "Second Author"] rfl).2.2 _ rfl,
   (c4_author_list_first_element
      [("author", CVal.list
        [CVal.entry true [("name", "Jane")], CVal.s "Second Author"])]
      (CVal.entry true [("name", "Jane")])
      [CVal.s "Second Author"] rfl).1⟩

/-! ## HTML scraper (src/src/v2_ai_mcp/scraper.py)

The parsed document is a tree of elements (tag, class list, attributes,
children) and text nodes; a document is the list of top-level nodes.
BeautifulSoup operations are modelled on this tree: `select_one` returns
the first matching element in document order (pre-order), `find_all("p")`
the list of descendant `p` elements in document order, `get_text()` the
concatenation of all descendant strings (each one `.strip()`-ed when
`strip=True`), and `decompose` of the denylisted tags a pure
tree-filtering pass.  Python `str.strip()` is modelled over the ASCII
whitespace that `Char.isWhitespace` covers. -/

/-- An HTML DOM node: a text run, or an element with tag, classes,
attributes and children. -/
inductive HNode where
  | text (s : String)
  | elem (tag : String) (classes : List String)
      (attrs : List (String × String)) (children : List HNode)

/-- Drop leading whitespace characters. -/
def dropWs : List Char → List Char
  | [] => []
  | c :: rest => if c.isWhitespace then dropWs rest else c :: rest

/-- Python `str.strip()`: drop whitespace from both ends. -/
def pyStrip (s : String) : String :=
  String.mk ((dropWs (dropWs s.data).reverse).reverse)

mutual

/-- BeautifulSoup `element.get_text()`: concatenation of all descendant
strings in document order. -/
def getTextRaw : HNode → String
  | HNode.text s => s
  | HNode.elem _ _ _ ch => getTextRawList ch

/-- BeautifulSoup `get_text()` over a node list. -/
def getTextRawList : List HNode → String
  | [] => ""
  | n :: rest => getTextRaw n ++ getTextRawList rest

end

mutual

/-- BeautifulSoup `element.get_text(strip=True)`: concatenation of the
stripped descendant strings in document order. -/
def getTextStrip : HNode → String
  | HNode.text s => pyStrip s
  | HNode.elem _ _ _ ch => getTextStripList ch

/-- BeautifulSoup `get_text(strip=True)` over a node list. -/
def getTextStripList : List HNode → String
  | [] => ""
  | n :: rest => getTextStrip n ++ getTextStripList rest

end

/-- A CSS selector of one of the three shapes the scraper uses: a tag
name (`main`), a class (`.content`), or an attribute presence
(`[datetime]`). -/
inductive Sel where
  | tagSel (t : String)
  | classSel (c : String)
  | attrSel (a : String)

/-- Whether a node matches a selector (text runs match nothing). -/
def matchesSel : Sel → HNode → Bool
  | Sel.tagSel t, HNode.elem tg _ _ _ => tg = t
  | Sel.classSel c, HNode.elem _ cls _ _ => cls.contains c
  | Sel.attrSel a, HNode.elem _ _ attrs _ => (attrs.lookup a).isSome
  | _, HNode.text _ => false

mutual

/-- BeautifulSoup `select_one` / `find` over a node list: the first node
matching the selector in document order (pre-order traversal). -/
def select_one (s : Sel) : List HNode → Option HNode
  | [] => none
  | n :: rest =>
    if matchesSel s n then some n
    else
      match select_one_below s n with
      | some m => some m
      | none => select_one s rest

/-- The first selector match among a node's descendants. -/
def select_one_below (s : Sel) : HNode → Option HNode
  | HNode.text _ => none
  | HNode.elem _ _ _ ch => select_one s ch

end

mutual

/-- BeautifulSoup `find_all(tag)` over a node list: all matching elements
in document order (an element precedes its descendants). -/
def findAllTag (t : String) : List HNode → List HNode
  | [] => []
  | n :: rest => findAllTagNode t n ++ findAllTag t rest

/-- `find_all(tag)` matches within one node and its subtree. -/
def findAllTagNode (t : String) : HNode → List HNode
  | HNode.text _ => []
  | HNode.elem tg c a ch =>
    (if tg = t then [HNode.elem tg c a ch] else []) ++ findAllTag t ch

end

/-- The children of a node (none for a text run). -/
def childrenOf : HNode → List HNode
  | HNode.text _ => []
  | HNode.elem _ _ _ ch => ch

/-- `element.find_all("p")`: the descendant paragraphs of an element. -/
def findParagraphs (n : HNode) : List HNode := findAllTag "p" (childrenOf n)

/-- The tags removed before content extraction (scraper.py line 77). -/
def denyTags : List String := ["script", "style", "nav", "header", "footer"]

mutual

/-- The `decompose` pass (scraper.py lines 77-78), modelled as a pure
filter: drop every script/style/nav/header/footer element with its whole
subtree. -/
def decomposeList : List HNode → List HNode
  | [] => []
  | n :: rest => decomposeNode n ++ decomposeList rest

/-- `decompose` on one node: the node is dropped when denylisted, kept
(with filtered subtree) otherwise. -/
def decomposeNode : HNode → List HNode
  | HNode.text s => [HNode.text s]
  | HNode.elem tg c a ch =>
    if denyTags.contains tg then []
    else [HNode.elem tg c a (decomposeList ch)]

end

/-- The ordered content-container selectors (scraper.py lines 81-88). -/
def content_selectors : List Sel :=
  [Sel.tagSel "main", Sel.classSel "content", Sel.classSel "post-content",
   Sel.classSel "article-content", Sel.tagSel "article",
   Sel.classSel "entry-content"]

/-- The join `"\n\n".join([p.get_text(strip=True) for p in paragraphs if
p.get_text(strip=True)])` (scraper.py lines 97-103). -/
def joinParagraphs (ps : List HNode) : String :=
  joinSep "\n\n" ((ps.map getTextStrip).filter (fun t => t ≠ ""))

/-- The selector loop of scraper.py lines 91-104: stop at the first
selector matching an element that contains at least one paragraph (with
any text, empty included) and join that element's non-empty paragraph
texts; a selector matching an element without paragraphs, or matching
nothing, falls through to the next selector. -/
def selectorContent (soup : List HNode) : List Sel → String
  | [] => ""
  | s :: rest =>
    match select_one s soup with
    | some el =>
      let ps := findParagraphs el
      if ps.isEmpty then selectorContent soup rest else joinParagraphs ps
    | none => selectorContent soup rest

/-- Content resolution (scraper.py lines 90-114) over the decomposed
tree: the selector loop, then the whole-document paragraph fallback when
the result is empty, then the "Content not found" placeholder. -/
def scrapeContent (soup : List HNode) : String :=
  let c := selectorContent soup content_selectors
  let c2 := if c = "" then joinParagraphs (findAllTag "p" soup) else c
  if c2 = "" then "Content not found" else c2

/-! ### Date regex patterns (scraper.py lines 28-49)

The four raw patterns use only word boundaries, the classes `[A-Za-z]`,
`\d` and `[slash or dash]`, greedy counted repetition and literals; they are
embedded as token lists and matched with Python semantics: `re.search`
tries start positions left to right and, per position, matches the token
list with greedy backtracking.  `\w` is `[A-Za-z0-9_]` on this ASCII
input. -/

/-- A regex token of the date patterns: word boundary, `[A-Za-z]+`,
`\d{lo,hi}`, a literal character, or a one-character class. -/
inductive RTok where
  | wb
  | alphas
  | digits (lo hi : Nat)
  | lit (c : Char)
  | cls (cs : List Char)

/-- Regex word character: `[A-Za-z0-9_]`. -/
def isWordChar (c : Char) : Bool := c.isAlphanum || c = '_'

/-- Word-char test through an optional character (none at the ends of the
subject counts as non-word). -/
def isWordOpt : Option Char → Bool
  | some c => isWordChar c
  | none => false

/-- `\b`: a boundary sits between a word and a non-word position. -/
def atBoundary (prev next : Option Char) : Bool :=
  isWordOpt prev != isWordOpt next

/-- Length of the maximal prefix satisfying `p`. -/
def countWhile (p : Char → Bool) : List Char → Nat
  | [] => 0
  | c :: rest => if p c then countWhile p rest + 1 else 0

/-- The candidate repetition lengths `j, j-1, ..., lo` in greedy
(descending) order. -/
def downFrom (lo : Nat) : Nat → List Nat
  | 0 => if lo = 0 then [0] else []
  | j + 1 => if j + 1 < lo then [] else (j + 1) :: downFrom lo j

/-- The character preceding the rest of the subject after consuming `j`
characters of `s` (the previous character when `j = 0`). -/
def prevAfter (prev : Option Char) (s : List Char) (j : Nat) : Option Char :=
  if j = 0 then prev else (s.take j).getLast?

/-- Match a token list against a subject (with the character preceding it,
for boundaries), returning the number of characters consumed; quantifiers
are greedy with backtracking, exactly as Python's `re` matches these
patterns. -/
def matchToks : List RTok → Option Char → List Char → Option Nat
  | [], _, _ => some 0
  | RTok.wb :: ts, prev, s =>
    if atBoundary prev s.head? then matchToks ts prev s else none
  | RTok.lit c :: ts, _, s =>
    match s with
    | [] => none
    | c2 :: rest =>
      if c2 = c then (matchToks ts (some c2) rest).map (· + 1) else none
  | RTok.cls cs :: ts, _, s =>
    match s with
    | [] => none
    | c2 :: rest =>
      if cs.contains c2 then (matchToks ts (some c2) rest).map (· + 1) else none
  | RTok.alphas :: ts, prev, s =>
    (downFrom 1 (countWhile Char.isAlpha s)).findSome? (fun j =>
      (matchToks ts (prevAfter prev s j) (s.drop j)).map (j + ·))
  | RTok.digits lo hi :: ts, prev, s =>
    (downFrom lo (min hi (countWhile Char.isDigit s))).findSome? (fun j =>
      (matchToks ts (prevAfter prev s j) (s.drop j)).map (j + ·))

/-- Python `re.search`: try each start position from the left; on the
first position where the pattern matches, return the matched substring
(`match.group()`). -/
def reSearch (toks : List RTok) : Option Char → List Char → Option (List Char)
  | prev, s =>
    match matchToks toks prev s with
    | some n => some (s.take n)
    | none =>
      match s with
      | [] => none
      | c :: rest => reSearch toks (some c) rest

/-- `\b[A-Za-z]+ \d{1,2}, \d{4}\b` — "Month DD, YYYY" (scraper.py line 29). -/
def pat1 : List RTok :=
  [RTok.wb, RTok.alphas, RTok.lit ' ', RTok.digits 1 2, RTok.lit ',',
   RTok.lit ' ', RTok.digits 4 4, RTok.wb]

/-- `\b\d{1,2} [A-Za-z]+ \d{4}\b` — "DD Month YYYY" (line 30). -/
def pat2 : List RTok :=
  [RTok.wb, RTok.digits 1 2, RTok.lit ' ', RTok.alphas, RTok.lit ' ',
   RTok.digits 4 4, RTok.wb]

/-- `\b\d{1,2}[slash or dash]\d{1,2}[slash or dash]\d{2,4}\b` — "MM/DD/YYYY"-style (line 31). -/
def pat3 : List RTok :=
  [RTok.wb, RTok.digits 1 2, RTok.cls ['/', '-'], RTok.digits 1 2,
   RTok.cls ['/', '-'], RTok.digits 2 4, RTok.wb]

/-- `\b\d{4}[slash or dash]\d{1,2}[slash or dash]\d{1,2}\b` — "YYYY/MM/DD"-style (line 32). -/
def pat4 : List RTok :=
  [RTok.wb, RTok.digits 4 4, RTok.cls ['/', '-'], RTok.digits 1 2,
   RTok.cls ['/', '-'], RTok.digits 1 2, RTok.wb]

/-- The date patterns in the code's priority order (lines 28-33). -/
def date_patterns : List (List RTok) := [pat1, pat2, pat3, pat4]

/-- The author-name characters of the cleanup regex. -/
def rodanChars : List Char := ['R', 'o', 'd', 'a', 'n']

/-- The suffix following the last occurrence of "Rodan", when there is
one (scanning gives the rightmost occurrence). -/
def afterLastRodan : List Char → Option (List Char)
  | [] => none
  | c :: rest =>
    match afterLastRodan rest with
    | some r => some r
    | none =>
      if beginsWith rodanChars (c :: rest) then some ((c :: rest).drop 5)
      else none

/-- `re.sub(r".*?Rodan\s*", "", date)` (line 48): each lazy match swallows
everything up to and including the next "Rodan" plus trailing whitespace,
and `sub` replaces every match, so — "Rodan" having no self-overlap — the
result is the suffix after the last occurrence of "Rodan" with its
leading whitespace dropped. -/
def pyRodanSub (s : String) : String :=
  match afterLastRodan s.data with
  | some r => String.mk (dropWs r)
  | none => s

/-- Lines 45-48: `date = match.group().strip()`, then the author-name
cleanup when "Rodan" occurs in the matched substring. -/
def cleanDate (m : List Char) : String :=
  let d := pyStrip (String.mk m)
  if listContains rodanChars d.data then pyRodanSub d else d

/-- The pattern loop of lines 42-49 on the container text: first pattern
with a match (leftmost occurrence) wins, and its cleaned match is the
date. -/
def regexDateGo (cs : List Char) : List (List RTok) → Option String
  | [] => none
  | p :: ps =>
    match reSearch p none cs with
    | some m => some (cleanDate m)
    | none => regexDateGo cs ps

/-- Regex date resolution against the heading container's text. -/
def regexDate (text : String) : Option String :=
  regexDateGo text.data date_patterns

/-! ### Date selector fallback and post assembly -/

/-- The fallback date selectors (scraper.py lines 53-61): `time`, any
element with a `datetime` attribute, then the date-like classes. -/
def date_selectors : List Sel :=
  [Sel.tagSel "time", Sel.attrSel "datetime", Sel.classSel "date",
   Sel.classSel "published", Sel.classSel "post-date",
   Sel.classSel "meta-date", Sel.classSel "publish-date"]

/-- Attribute read `element.get(a)`. -/
def attrOf (a : String) : HNode → Option String
  | HNode.elem _ _ attrs _ => attrs.lookup a
  | HNode.text _ => none

/-- The selector loop of lines 63-71: for the first selector matching an
element, take its `datetime` attribute when truthy, else its stripped
text; an empty result falls through to the next selector. -/
def selectorDate (soup : List HNode) : List Sel → Option String
  | [] => none
  | s :: rest =>
    match select_one s soup with
    | some el =>
      let dt :=
        match attrOf "datetime" el with
        | some v => if v = "" then getTextStrip el else v
        | none => getTextStrip el
      if dt = "" then selectorDate soup rest else some dt
    | none => selectorDate soup rest

mutual

/-- Lines 36-41: the raw text of the parent container of the first `h1`
in document order.  The parent of a top-level `h1` is the document
itself, whose `get_text()` is the whole document's text (the `ptxt`
argument carries the enclosing container's text). -/
def findH1Container : List HNode → String → Option String
  | [], _ => none
  | n :: rest, ptxt =>
    match findH1Node n ptxt with
    | some t => some t
    | none => findH1Container rest ptxt

/-- First-`h1` search within one node: an `h1` element reports its
parent's text, any other element is searched with itself as parent. -/
def findH1Node : HNode → String → Option String
  | HNode.text _, _ => none
  | HNode.elem tg _ _ ch, ptxt =>
    if tg = "h1" then some ptxt
    else findH1Container ch (getTextRawList ch)

end

/-- Python truthiness of the optional date accumulator (`None` and the
empty string are falsy). -/
def pyTruthy : Option String → Bool
  | some s => s ≠ ""
  | none => false

/-- scraper.py lines 7-131, `fetch_blog_post`: the transport outcome is
passed explicitly (`Except.error e` models a raised
`requests.RequestException` with message `e`, `Except.ok soup` the parsed
2xx document).  On transport failure the error post is returned with no
scraping at all; otherwise title, date (regex on the h1 container, then
selector fallback, then placeholder), fixed author, and content (on the
decomposed tree) are assembled. -/
def fetch_blog_post (url : String) (transport : Except String (List HNode)) :
    Post :=
  match transport with
  | Except.error e =>
    { title := "Error fetching post", date := "", author := "",
      content := "Error: " ++ e, url := url }
  | Except.ok soup =>
    let title :=
      match select_one (Sel.tagSel "h1") soup with
      | some el => getTextStrip el
      | none => "No title found"
    let dateRegex : Option String :=
      match findH1Container soup (getTextRawList soup) with
      | some ptxt => regexDate ptxt
      | none => none
    let dateSel : Option String :=
      if pyTruthy dateRegex then dateRegex
      else
        match selectorDate soup date_selectors with
        | some d => some d
        | none => dateRegex
    let date :=
      match dateSel with
      | some d => if d = "" then "Date not found" else d
      | none => "Date not found"
    let cleaned := decomposeList soup
    { title := title, date := date, author := "Ashley Rodan",
      content := scrapeContent cleaned, url := url }

/-! ## Theorems for claims C6, C7 and C8 -/

/-- A document in which `main` holds one empty-text paragraph, `.content`
holds the paragraph "C" and `article` holds the paragraph "A". -/
def c6doc : List HNode :=
  [HNode.elem "main" [] [] [HNode.elem "p" [] [] [HNode.text ""]],
   HNode.elem "div" ["content"] [] [HNode.elem "p" [] [] [HNode.text "C"]],
   HNode.elem "article" [] [] [HNode.elem "p" [] [] [HNode.text "A"]]]

/-- The `main` element of `c6doc`. -/
def c6mainEl : HNode :=
  HNode.elem "main" [] [] [HNode.elem "p" [] [] [HNode.text ""]]

/-- The `.content` element of `c6doc`. -/
def c6contentEl : HNode :=
  HNode.elem "div" ["content"] [] [HNode.elem "p" [] [] [HNode.text "C"]]

/-- The `article` element of `c6doc`. -/
def c6articleEl : HNode :=
  HNode.elem "article" [] [] [HNode.elem "p" [] [] [HNode.text "A"]]

/-- C6 counterexample: in `c6doc` both a `.content` element and an
`article` element exist with (non-empty) paragraphs, and the first
element with a non-empty paragraph under the selector order is
`.content`, so the claim predicts content "C"; but `main` matches first
with a paragraph whose text is empty, the loop stops there with an empty
join, and the whole-document fallback returns "C\n\nA" — not the
`.content` element's paragraphs. -/
theorem c6_counterexample :
    select_one (Sel.tagSel "main") c6doc = some c6mainEl ∧
    joinParagraphs (findParagraphs c6mainEl) = "" ∧
    select_one (Sel.classSel "content") c6doc = some c6contentEl ∧
    (findParagraphs c6contentEl).isEmpty = false ∧
    joinParagraphs (findParagraphs c6contentEl) = "C" ∧
    select_one (Sel.tagSel "article") c6doc = some c6articleEl ∧
    (findParagraphs c6articleEl).isEmpty = false ∧
    scrapeContent c6doc = "C\n\nA" ∧
    ("C\n\nA" : String) ≠ "C" :=
  ⟨rfl, rfl, rfl, rfl, rfl, rfl, rfl, rfl, by decide⟩

/-- C6 (amended): the probing order is `main`, `.content`,
`.post-content`, `.article-content`, `article`, `.entry-content`, and the
loop stops at the first selector matching an element that contains at
least one paragraph (an all-empty-text paragraph set stops it too, after
which the whole-document fallback applies); in particular, whenever no
`main` match contains a paragraph, a `.content` element is matched, and
it contains a paragraph with non-empty text, the `.content` element's
non-empty paragraph texts joined by blank lines are the content — before
`article` is ever consulted. -/
theorem c6_selector_order (soup : List HNode) (ce : HNode)
    (hmain : ∀ el, select_one (Sel.tagSel "main") soup = some el →
      findParagraphs el = [])
    (hc : select_one (Sel.classSel "content") soup = some ce)
    (hp : findParagraphs ce ≠ [])
    (hj : joinParagraphs (findParagraphs ce) ≠ "") :
    scrapeContent soup = joinParagraphs (findParagraphs ce) := by
  have hpe : (findParagraphs ce).isEmpty = false := by
    cases hfp : findParagraphs ce with
    | nil => exact absurd hfp hp
    | cons a l => rfl
  have hsel : selectorContent soup content_selectors =
      joinParagraphs (findParagraphs ce) := by
    cases hm : select_one (Sel.tagSel "main") soup with
    | none => simp only [content_selectors, selectorContent, hm, hc, hpe,
        Bool.false_eq_true, if_false]
    | some el =>
      have hnil := hmain el hm
      simp only [content_selectors, selectorContent, hm, hnil,
        List.isEmpty_nil, if_true, hc, hpe, Bool.false_eq_true, if_false]
  simp only [scrapeContent, hsel, if_neg hj]

/-- C6 witness: a document whose `main` has no paragraphs at all and
whose `.content` holds the paragraph "C" (with an `article` after it)
resolves to the `.content` element's paragraph join "C". -/
theorem c6_selector_order_witness :
    scrapeContent
      [HNode.elem "main" [] [] [HNode.text "no paragraphs here"],
       HNode.elem "div" ["content"] [] [HNode.elem "p" [] [] [HNode.text "C"]],
       HNode.elem "article" [] [] [HNode.elem "p" [] [] [HNode.text "A"]]] =
      "C" := by
  have h := c6_selector_order
    [HNode.elem "main" [] [] [HNode.text "no paragraphs here"],
     HNode.elem "div" ["content"] [] [HNode.elem "p" [] [] [HNode.text "C"]],
     HNode.elem "article" [] [] [HNode.elem "p" [] [] [HNode.text "A"]]]
    (HNode.elem "div" ["content"] [] [HNode.elem "p" [] [] [HNode.text "C"]])
    (by
      intro el hel
      cases Option.some.inj
        (show some (HNode.elem "main" [] [] [HNode.text "no paragraphs here"]) =
          some el from hel)
      rfl)
    rfl
    (fun hcontra => List.noConfusion
      (show (HNode.elem "p" [] [] [HNode.text "C"] :: []) = ([] : List HNode)
        from hcontra))
    (fun hcontra => by
      exact absurd (show ("C" : String) = "" from hcontra) (by decide))
  exact h.trans rfl

/-- C7: HTML date resolution tries the four date patterns in priority
order against the heading container's text — a later pattern is consulted
only when every earlier pattern has no match anywhere in the text — and
the accepted match is stripped and cleaned of the fixed author name; in
particular the container text "Ashley RodanJuly 15, 2024" resolves to
"July 15, 2024" (pattern 1 matches "RodanJuly 15, 2024" and the cleanup
strips everything up to and including "Rodan"). -/
theorem c7_date_pattern_priority :
    (∀ t m, reSearch pat1 none t.data = some m →
      regexDate t = some (cleanDate m)) ∧
    (∀ t m, reSearch pat1 none t.data = none →
      reSearch pat2 none t.data = some m →
      regexDate t = some (cleanDate m)) ∧
    (∀ t m, reSearch pat1 none t.data = none →
      reSearch pat2 none t.data = none →
      reSearch pat3 none t.data = some m →
      regexDate t = some (cleanDate m)) ∧
    (∀ t m, reSearch pat1 none t.data = none →
      reSearch pat2 none t.data = none →
      reSearch pat3 none t.data = none →
      reSearch pat4 none t.data = some m →
      regexDate t = some (cleanDate m)) ∧
    (∀ t, reSearch pat1 none t.data = none →
      reSearch pat2 none t.data = none →
      reSearch pat3 none t.data = none →
      reSearch pat4 none t.data = none →
      regexDate t = none) ∧
    regexDate "Ashley RodanJuly 15, 2024" = some "July 15, 2024" := by
  refine ⟨?_, ?_, ?_, ?_, ?_, by decide⟩
  · intro t m h1
    simp only [regexDate, date_patterns, regexDateGo, h1]
  · intro t m h1 h2
    simp only [regexDate, date_patterns, regexDateGo, h1, h2]
  · intro t m h1 h2 h3
    simp only [regexDate, date_patterns, regexDateGo, h1, h2, h3]
  · intro t m h1 h2 h3 h4
    simp only [regexDate, date_patterns, regexDateGo, h1, h2, h3, h4]
  · intro t h1 h2 h3 h4
    simp only [regexDate, date_patterns, regexDateGo, h1, h2, h3, h4]

/-- C7 witness: the priority conjuncts instantiated concretely — pattern
1 accepts "May 5, 2024" directly, and "2024-07-15" falls through the
first three patterns to pattern 4. -/
theorem c7_date_pattern_priority_witness :
    regexDate "May 5, 2024" = some "May 5, 2024" ∧
    regexDate "on 2024-07-15" = some "2024-07-15" := by
  constructor
  · have h := c7_date_pattern_priority.1 "May 5, 2024"
      "May 5, 2024".data (by decide)
    exact h.trans (by decide)
  · have h := c7_date_pattern_priority.2.2.2.1 "on 2024-07-15"
      "2024-07-15".data (by decide) (by decide) (by decide) (by decide)
    exact h.trans (by decide)

/-- C8: every transport-level failure (modelled as the raised
`requests.RequestException` carried by `Except.error`) returns — with no
scraping attempted, since no document is even consulted — the Post with
title "Error fetching post", content `"Error: " ++ e` (so the content is
"Error:" followed by the stringified error), the requested url, and
empty date and author. -/
theorem c8_transport_failure_error_post (url e : String) :
    fetch_blog_post url (Except.error e) =
      { title := "Error fetching post", date := "", author := "",
        content := "Error: " ++ e, url := url } ∧
    ∃ rest, "Error: " ++ e = "Error:" ++ rest :=
  ⟨rfl, ⟨" " ++ e, by
    rw [show ("Error: " : String) = "Error:" ++ " " from rfl,
      String.append_assoc]⟩⟩

end V2AiMcp
